import Mathlib

/-
Verification development for the multi-category parallel review pipeline
(`api_client.py` and `report_generator.py`).

The embedding is shallow: the Python data classes become Lean structures,
JSON values become an inductive type, `json.loads` becomes an executable
recursive-descent parser over the JSON grammar (numeric literals are
modelled over integers; the program's output schema only uses integer
numbers), and Python exceptions become `Except String`.  Dynamically
typed field accesses (`dict.get`, iteration) are modelled by total
functions into `Except`, matching the `AttributeError` / `TypeError`
each misuse raises in Python.
-/

/-- JSON values as produced by `json.loads`.  Object fields keep their
textual order, duplicates included; lookups take the last binding, which
matches Python's "last duplicate key wins" behaviour.  An integer
numeral becomes a Python `int` (`num`); a fractional or exponent numeral
and the `NaN` / `Infinity` / `-Infinity` constants become Python floats,
represented by their source literal (`fnum`): the program only ever
stores parsed numbers into report fields and compares values against
string keys, never comparing or computing with numbers, so the literal
carries everything observable. -/
inductive Json where
  | null : Json
  | bool (b : Bool) : Json
  | num (n : Int) : Json
  | fnum (lit : String) : Json
  | str (s : String) : Json
  | arr (xs : List Json) : Json
  | obj (kvs : List (String × Json)) : Json
deriving Repr

/-- Whitespace in the sense of Python's `str.strip` (no argument) and of
`re`'s `\\s` in a text pattern.  In CPython the two sets coincide: the
characters for which `str.isspace` holds, namely U+0009 to U+000D,
U+001C to U+001F, the space, U+0085, U+00A0, U+1680, U+2000 to U+200A,
U+2028, U+2029, U+202F, U+205F and U+3000. -/
def isWS (c : Char) : Bool :=
  (9 ≤ c.toNat && c.toNat ≤ 13) || c.toNat = 32 ||
  (28 ≤ c.toNat && c.toNat ≤ 31) || c.toNat = 0x85 || c.toNat = 0xa0 ||
  c.toNat = 0x1680 || (0x2000 ≤ c.toNat && c.toNat ≤ 0x200a) ||
  c.toNat = 0x2028 || c.toNat = 0x2029 || c.toNat = 0x202f ||
  c.toNat = 0x205f || c.toNat = 0x3000

/-- Inter-token whitespace of the JSON grammar: Python's `json.loads`
allows only space, tab, newline and carriage return between tokens —
a strictly smaller set than `\s` or `str.strip`'s. -/
def isJsonWS (c : Char) : Bool :=
  c = ' ' || c = '\t' || c = '\n' || c = '\r'

def skipWS (l : List Char) : List Char := l.dropWhile isWS

def skipJsonWS (l : List Char) : List Char := l.dropWhile isJsonWS

def dropTrailingWS (l : List Char) : List Char :=
  (l.reverse.dropWhile isWS).reverse

/-- Python `str.strip()` on the character list of a string. -/
def pyStripChars (l : List Char) : List Char := dropTrailingWS (l.dropWhile isWS)

/-- Python `str.strip()`. -/
def pyStrip (s : String) : String := String.mk (pyStripChars s.toList)

def digitVal (c : Char) : Option Nat :=
  if '0' ≤ c ∧ c ≤ '9' then some (c.toNat - 48) else none

def hexVal (c : Char) : Option Nat :=
  if '0' ≤ c ∧ c ≤ '9' then some (c.toNat - 48)
  else if 'a' ≤ c ∧ c ≤ 'f' then some (c.toNat - 87)
  else if 'A' ≤ c ∧ c ≤ 'F' then some (c.toNat - 55)
  else none

/-- Body of a JSON string literal (after the opening quote): standard
escapes and `\uXXXX`, with a high surrogate followed by a `\u`-escaped
low surrogate combined into one code point as CPython's scanner does;
unescaped control characters are rejected, as in `json.loads`' strict
mode.  A lone surrogate (which a Python `str` can hold but a Lean `Char`
cannot) is represented by the NUL character; the program never inspects
string contents except for equality with ASCII key and severity
literals, which neither a lone surrogate nor NUL ever satisfies. -/
def parseStringBody : Nat → List Char → List Char → Option (String × List Char)
  | 0, _, _ => none
  | _, [], _ => none
  | fuel + 1, c :: rest, acc =>
    if c = '"' then some (String.mk acc.reverse, rest)
    else if c = '\\' then
      match rest with
      | [] => none
      | e :: rest2 =>
        if e = '"' then parseStringBody fuel rest2 ('"' :: acc)
        else if e = '\\' then parseStringBody fuel rest2 ('\\' :: acc)
        else if e = '/' then parseStringBody fuel rest2 ('/' :: acc)
        else if e = 'n' then parseStringBody fuel rest2 ('\n' :: acc)
        else if e = 't' then parseStringBody fuel rest2 ('\t' :: acc)
        else if e = 'r' then parseStringBody fuel rest2 ('\r' :: acc)
        else if e = 'b' then parseStringBody fuel rest2 ('\x08' :: acc)
        else if e = 'f' then parseStringBody fuel rest2 ('\x0c' :: acc)
        else if e = 'u' then
          match rest2 with
          | h1 :: h2 :: h3 :: h4 :: rest3 =>
            match hexVal h1, hexVal h2, hexVal h3, hexVal h4 with
            | some a, some b, some c3, some d =>
              let n1 := ((a * 16 + b) * 16 + c3) * 16 + d
              if 0xd800 ≤ n1 && n1 ≤ 0xdbff then
                match rest3 with
                | '\\' :: 'u' :: h5 :: h6 :: h7 :: h8 :: rest4 =>
                  match hexVal h5, hexVal h6, hexVal h7, hexVal h8 with
                  | some a2, some b2, some c2, some d2 =>
                    let n2 := ((a2 * 16 + b2) * 16 + c2) * 16 + d2
                    if 0xdc00 ≤ n2 && n2 ≤ 0xdfff then
                      parseStringBody fuel rest4
                        (Char.ofNat (0x10000 + (n1 - 0xd800) * 0x400 + (n2 - 0xdc00)) :: acc)
                    else parseStringBody fuel rest3 (Char.ofNat n1 :: acc)
                  | _, _, _, _ => parseStringBody fuel rest3 (Char.ofNat n1 :: acc)
                | _ => parseStringBody fuel rest3 (Char.ofNat n1 :: acc)
              else parseStringBody fuel rest3 (Char.ofNat n1 :: acc)
            | _, _, _, _ => none
          | _ => none
        else none
    else if c.toNat < 32 then none
    else parseStringBody fuel rest (c :: acc)

/-- Digits of an integer literal, most significant first. -/
def parseDigits : List Char → Nat → Nat → (Nat × Nat × List Char)
  | [], acc, cnt => (acc, cnt, [])
  | c :: rest, acc, cnt =>
    match digitVal c with
    | some d => parseDigits rest (acc * 10 + d) (cnt + 1)
    | none => (acc, cnt, c :: rest)

/-- Fraction part `.[0-9]+` of a numeral, if present.  `none` when a
dot is not followed by a digit: CPython's number regex then matches only
the integer part and the leftover `.` always makes the document fail at
its next token, so rejecting here is document-level equivalent. -/
def parseFrac (l : List Char) : Option (Bool × List Char) :=
  match l with
  | '.' :: r =>
    match parseDigits r 0 0 with
    | (_, 0, _) => none
    | (_, _, rest) => some (true, rest)
  | _ => some (false, l)

/-- Exponent part `[eE][+-]?[0-9]+`, with the same document-level
equivalence argument for a digitless `1e` form. -/
def parseExp (l : List Char) : Option (Bool × List Char) :=
  match l with
  | c :: r =>
    if c = 'e' || c = 'E' then
      match (match r with
        | s :: r3 => if s = '+' || s = '-' then r3 else s :: r3
        | [] => []) with
      | r2 =>
        match parseDigits r2 0 0 with
        | (_, 0, _) => none
        | (_, _, rest) => some (true, rest)
    else some (false, c :: r)
  | [] => some (false, [])

/-- JSON numeral per Python's grammar
`-?(0|[1-9][0-9]*)(\.[0-9]+)?([eE][+-]?[0-9]+)?`: an integer form
yields a Python `int` (`Json.num`); a fractional or exponent form yields
a float, carried by its source literal (`Json.fnum`).  A redundant
leading zero is rejected: CPython's regex would match the `0` alone and
the leftover digit always fails the document at its next token, so this
too is document-level equivalent. -/
def parseNumber (l : List Char) : Option (Json × List Char) :=
  let (neg, l1) := match l with
    | '-' :: r => (true, r)
    | _ => (false, l)
  match parseDigits l1 0 0 with
  | (_, 0, _) => none
  | (v, icnt, rest1) =>
    let badZero : Bool := match l1, icnt with
      | '0' :: _ :: _, _ + 2 => true
      | _, _ => false
    if badZero then none
    else
      match parseFrac rest1 with
      | none => none
      | some (hasFrac, rest2) =>
        match parseExp rest2 with
        | none => none
        | some (hasExp, rest3) =>
          if hasFrac || hasExp then
            some (Json.fnum (String.mk (l.take (l.length - rest3.length))), rest3)
          else some (Json.num (if neg then -(v : Int) else (v : Int)), rest3)

mutual

/-- One JSON value starting at the current position. -/
def parseValue : Nat → List Char → Option (Json × List Char)
  | 0, _ => none
  | fuel + 1, l =>
    match l with
    | [] => none
    | c :: rest =>
      if c = '"' then
        match parseStringBody (rest.length + 1) rest [] with
        | some (s, r) => some (Json.str s, r)
        | none => none
      else if c = '{' then
        match skipJsonWS rest with
        | '}' :: r => some (Json.obj [], r)
        | l1 => parseObjectItems fuel l1
      else if c = '[' then
        match skipJsonWS rest with
        | ']' :: r => some (Json.arr [], r)
        | l1 => parseArrayItems fuel l1
      else
        match l with
        | 't' :: 'r' :: 'u' :: 'e' :: r => some (Json.bool true, r)
        | 'f' :: 'a' :: 'l' :: 's' :: 'e' :: r => some (Json.bool false, r)
        | 'n' :: 'u' :: 'l' :: 'l' :: r => some (Json.null, r)
        | 'N' :: 'a' :: 'N' :: r => some (Json.fnum ("NaN"), r)
        | 'I' :: 'n' :: 'f' :: 'i' :: 'n' :: 'i' :: 't' :: 'y' :: r =>
          some (Json.fnum ("Infinity"), r)
        | '-' :: 'I' :: 'n' :: 'f' :: 'i' :: 'n' :: 'i' :: 't' :: 'y' :: r =>
          some (Json.fnum ("-Infinity"), r)
        | _ => parseNumber l

/-- Members of a non-empty object, positioned at a key. -/
def parseObjectItems : Nat → List Char → Option (Json × List Char)
  | 0, _ => none
  | fuel + 1, l =>
    match l with
    | '"' :: rest =>
      match parseStringBody (rest.length + 1) rest [] with
      | some (key, r1) =>
        match skipJsonWS r1 with
        | ':' :: r2 =>
          match parseValue fuel (skipJsonWS r2) with
          | some (v, r3) =>
            match skipJsonWS r3 with
            | ',' :: r4 =>
              match parseObjectItems fuel (skipJsonWS r4) with
              | some (Json.obj kvs, r5) => some (Json.obj ((key, v) :: kvs), r5)
              | _ => none
            | '}' :: r4 => some (Json.obj [(key, v)], r4)
            | _ => none
          | none => none
        | _ => none
      | none => none
    | _ => none

/-- Elements of a non-empty array, positioned at a value. -/
def parseArrayItems : Nat → List Char → Option (Json × List Char)
  | 0, _ => none
  | fuel + 1, l =>
    match parseValue fuel l with
    | some (v, r1) =>
      match skipJsonWS r1 with
      | ',' :: r2 =>
        match parseArrayItems fuel (skipJsonWS r2) with
        | some (Json.arr xs, r3) => some (Json.arr (v :: xs), r3)
        | _ => none
      | ']' :: r2 => some (Json.arr [v], r2)
      | _ => none
    | none => none

end

/-- Model of Python's `json.loads`: one complete JSON document, with
leading and trailing JSON whitespace tolerated and trailing garbage
rejected.  Not modelled: CPython's recursion limit, a resource bound
that makes extremely deeply nested documents raise `RecursionError`. -/
def json_loads_chars (l : List Char) : Option Json :=
  match parseValue (2 * l.length + 2) (skipJsonWS l) with
  | some (v, rest) => if (skipJsonWS rest).isEmpty then some v else none
  | none => none

def json_loads (s : String) : Option Json := json_loads_chars s.toList

/-! ### Python dynamic-access helpers -/

/-- Last binding for a key in an object's field list (Python dicts keep
the last duplicate). -/
def lookupKey : List (String × Json) → String → Option Json
  | [], _ => none
  | (k, v) :: rest, key =>
    match lookupKey rest key with
    | some r => some r
    | none => if k = key then some v else none

/-- Python `obj.get(key, default)`: only dicts have `.get`; any other
value raises `AttributeError`. -/
def pyDictGet (o : Json) (key : String) (dflt : Json) : Except String Json :=
  match o with
  | Json.obj kvs => Except.ok ((lookupKey kvs key).getD dflt)
  | _ => Except.error ("AttributeError: object has no attribute get")

/-- Python iteration over a value: lists yield elements, strings yield
one-character strings, dicts yield their keys; other values raise
`TypeError`. -/
def pyIter : Json → Except String (List Json)
  | Json.arr xs => Except.ok xs
  | Json.str s => Except.ok (s.toList.map (fun ch => Json.str (String.mk [ch])))
  | Json.obj kvs => Except.ok (kvs.map (fun kv => Json.str kv.1))
  | _ => Except.error ("TypeError: object is not iterable")

/-! ### api_client.py: data model -/

/-- `CheckResult` (api_client.py line 52): outcome of one category check. -/
structure CheckResult where
  category : String
  name : String
  result_text : String
  success : Bool
  error : Option String
deriving Repr, DecidableEq

/-! ### report_generator.py: data model

`Issue` fields are dynamically typed in Python — `dataclass` annotations
are not enforced, and `_parse_single_result` stores whatever
`issue_data.get` returns — so every field is modelled as a `Json` value.
Likewise `CheckSection.visual_checks` and `CheckSection.has_target`
receive `parsed.get(...)` results unchecked. -/

structure Issue where
  number : Json
  severity : Json
  content : Json
  basis : Json
  location : Json
  action : Json
deriving Repr

structure CheckSection where
  title : String
  category : String
  issues : List Issue
  visual_checks : Json
  has_target : Json
  error : Option String
deriving Repr

/-- The summary dict `{"Fail": 0, "Warning": 0, "Info": 0}`; its key set
is fixed throughout `merge_results`, so a structure is faithful. -/
structure Summary where
  fail : Nat
  warning : Nat
  info : Nat
deriving Repr, DecidableEq

structure ParsedReport where
  summary : Summary
  sections : List CheckSection
  visual_checks : List Json
  raw_results : List CheckResult
deriving Repr

/-! ### report_generator.py: JSON extraction (`_parse_json_result`) -/

/-- The backtick character (written via its code point so that the
source never contains a raw backtick outside strings). -/
def tick : Char := Char.ofNat 96

/-- Does the list begin with three backticks? -/
def startsWithTicks : List Char → Bool
  | a :: b :: c :: _ => a = tick && b = tick && c = tick
  | _ => false

/-- After an opening fence: the regex `(?:json)?` greedily consumes a
literal `json` tag, then `\s*` greedily consumes whitespace.  (Taking
the tag can never lose a match: a closing fence is three backticks and
cannot overlap the letters of `json` or be consumed by `\s*`.) -/
def dropJsonTag : List Char → List Char
  | 'j' :: 's' :: 'o' :: 'n' :: r => r
  | l => l

def afterOpen (l : List Char) : List Char :=
  skipWS (dropJsonTag (l.drop 3))

/-- The raw characters before the first closing fence, or `none` when no
closing fence follows.  This realises the lazy `([\s\S]*?)` of the
pattern: the capture is the shortest prefix after which (whitespace and)
a closing ``` appears, so it simply stops at the first backtick triple. -/
def captureUpTo : List Char → Option (List Char)
  | [] => none
  | c :: rest =>
    if startsWithTicks (c :: rest) then some []
    else
      match captureUpTo rest with
      | some cap => some (c :: cap)
      | none => none

/-- `re.search(r"```(?:json)?\s*([\s\S]*?)\s*```", text)` returning
group 1: the leftmost opening fence that has a closing fence after it
wins, the capture excludes the greedily consumed leading whitespace and
the trailing whitespace absorbed by the final `\s*`. -/
def searchFence : List Char → Option (List Char)
  | [] => none
  | c :: rest =>
    if startsWithTicks (c :: rest) then
      match captureUpTo (afterOpen (c :: rest)) with
      | some cap => some (dropTrailingWS cap)
      | none => searchFence rest
    else searchFence rest

/-- `_parse_json_result` (report_generator.py line 47): extract the
fenced block if the fence regex matches, otherwise strip the whole text,
then `json.loads`; `None` on `json.JSONDecodeError`. -/
def parse_json_result_chars (l : List Char) : Option Json :=
  match searchFence l with
  | some g => json_loads_chars g
  | none => json_loads_chars (pyStripChars l)

def parse_json_result (result_text : String) : Option Json :=
  parse_json_result_chars result_text.toList

/-! ### report_generator.py: `_parse_single_result` and `merge_results` -/

/-- The parse-failure message of report_generator.py line 89:
`f"JSONパースエラー: {check_result.result_text[:200]}..."`. -/
def previewErr (t : String) : String :=
  "JSONパースエラー: " ++ t.take 200 ++ "..."

/-- One issue from one element of the `issues` array
(report_generator.py lines 94-102), with the source's defaults. -/
def buildIssue (i : Nat) (d : Json) : Except String Issue :=
  match pyDictGet d ("number") (Json.num i) with
  | Except.error e => Except.error e
  | Except.ok number =>
    match pyDictGet d ("severity") (Json.str ("Info")) with
    | Except.error e => Except.error e
    | Except.ok severity =>
      match pyDictGet d ("content") (Json.str ("")) with
      | Except.error e => Except.error e
      | Except.ok content =>
        match pyDictGet d ("basis") (Json.str ("")) with
        | Except.error e => Except.error e
        | Except.ok basis =>
          match pyDictGet d ("location") (Json.str ("")) with
          | Except.error e => Except.error e
          | Except.ok location =>
            match pyDictGet d ("action") (Json.str ("")) with
            | Except.error e => Except.error e
            | Except.ok action =>
              Except.ok (Issue.mk number severity content basis location action)

/-- `for i, issue_data in enumerate(parsed.get("issues", []), 1)`. -/
def buildIssues : Nat → List Json → Except String (List Issue)
  | _, [] => Except.ok []
  | i, d :: ds =>
    match buildIssue i d with
    | Except.error e => Except.error e
    | Except.ok issue =>
      match buildIssues (i + 1) ds with
      | Except.error e => Except.error e
      | Except.ok rest => Except.ok (issue :: rest)

/-- `_parse_single_result` (report_generator.py line 65). -/
def parse_single_result (cr : CheckResult) : Except String CheckSection :=
  if cr.success = false then
    Except.ok (CheckSection.mk cr.name cr.category [] (Json.arr []) (Json.bool false) cr.error)
  else
    match parse_json_result cr.result_text with
    | none =>
      Except.ok (CheckSection.mk cr.name cr.category [] (Json.arr []) (Json.bool true)
        (some (previewErr cr.result_text)))
    | some parsed =>
      match pyDictGet parsed ("issues") (Json.arr []) with
      | Except.error e => Except.error e
      | Except.ok issuesVal =>
        match pyIter issuesVal with
        | Except.error e => Except.error e
        | Except.ok ds =>
          match buildIssues 1 ds with
          | Except.error e => Except.error e
          | Except.ok issues =>
            match pyDictGet parsed ("visual_checks") (Json.arr []) with
            | Except.error e => Except.error e
            | Except.ok vc =>
              match pyDictGet parsed ("has_target") (Json.bool true) with
              | Except.error e => Except.error e
              | Except.ok ht =>
                Except.ok (CheckSection.mk cr.name cr.category issues vc ht none)

/-- Is this severity value the given summary key?  The equality half of
Python's `sev in summary` membership test: only the exact strings
compare equal to the dict's keys (hashability, the other half, is
`sevHashable` below). -/
def sevIs (sev : Json) (key : String) : Bool :=
  match sev with
  | Json.str s => s = key
  | _ => false

/-- `if sev in summary: summary[sev] += 1` (report_generator.py
lines 137-140).  The membership test hashes `sev`: a list or dict
severity raises `TypeError` out of the loop; any other value is simply
compared against the three string keys. -/
def bumpSummary (a : Summary) (sev : Json) : Except String Summary :=
  match sev with
  | Json.arr _ => Except.error ("TypeError: unhashable type: list")
  | Json.obj _ => Except.error ("TypeError: unhashable type: dict")
  | _ =>
    Except.ok (if sevIs sev ("Fail") then { a with fail := a.fail + 1 }
      else if sevIs sev ("Warning") then { a with warning := a.warning + 1 }
      else if sevIs sev ("Info") then { a with info := a.info + 1 }
      else a)

/-- The tally loop `for issue in section.issues:` of
report_generator.py lines 137-140; a `TypeError` from an unhashable
severity aborts it at that issue. -/
def bumpIssues : List Issue → Summary → Except String Summary
  | [], acc => Except.ok acc
  | i :: rest, acc =>
    match bumpSummary acc i.severity with
    | Except.error e => Except.error e
    | Except.ok acc2 => bumpIssues rest acc2

/-- `category_order = ["atm", "logo", "wording", "format"]`. -/
def category_order : List String := ["atm", "logo", "wording", "format"]

/-- `category_order.index(c) if c in category_order else 99`, the sort
key used both by `merge_results` and by `run_proofread_parallel`. -/
def canonIndex (c : String) : Nat :=
  if c = "atm" then 0
  else if c = "logo" then 1
  else if c = "wording" then 2
  else if c = "format" then 3
  else 99

/-- Stable insertion by key: the new element goes before the first
element of equal or larger key. -/
def insertByKey {α : Type} (key : α → Nat) (x : α) : List α → List α
  | [] => [x]
  | y :: ys => if key x ≤ key y then x :: y :: ys else y :: insertByKey key x ys

/-- Stable sort by a `Nat` key.  Python's `list.sort` / `sorted` are
stable; a stable sort's output is determined extensionally by stability
plus sortedness, so insertion sort is a faithful model. -/
def sortByKey {α : Type} (key : α → Nat) : List α → List α
  | [] => []
  | x :: xs => insertByKey key x (sortByKey key xs)

/-- The body of the `for result in sorted_results:` loop of
`merge_results` (report_generator.py lines 129-140), threading the
summary accumulator left to right and concatenating each section's
visual checks (`all_visual_checks.extend(...)` iterates the value and
raises `TypeError` on non-iterables). -/
def mergeLoop : List CheckResult → Summary → Except String (List CheckSection × List Json × Summary)
  | [], acc => Except.ok ([], [], acc)
  | r :: rest, acc =>
    match parse_single_result r with
    | Except.error e => Except.error e
    | Except.ok sec =>
      match pyIter sec.visual_checks with
      | Except.error e => Except.error e
      | Except.ok vnew =>
        match bumpIssues sec.issues acc with
        | Except.error e => Except.error e
        | Except.ok acc2 =>
          match mergeLoop rest acc2 with
          | Except.error e => Except.error e
          | Except.ok (secs, vcs, out) => Except.ok (sec :: secs, vnew ++ vcs, out)

/-- `merge_results` (report_generator.py line 114). -/
def merge_results (check_results : List CheckResult) : Except String ParsedReport :=
  match mergeLoop (sortByKey (fun r => canonIndex r.category) check_results) (Summary.mk 0 0 0) with
  | Except.error e => Except.error e
  | Except.ok (sections, all_visual_checks, summary) =>
    Except.ok (ParsedReport.mk summary sections all_visual_checks check_results)

/-! ### api_client.py: category reviewer and parallel dispatcher

The reviewer performs I/O (filesystem reads, one model call); the
environment abstracts it: `fileExists` is the filesystem seen by
`_load_reference_images`, and `apiCall c` is the outcome of the
`model.generate_content` call for category `c` — the response text, or
the message of whatever exception the call raised (network failure,
per-request timeout, malformed request).  Image decoding/resizing and
prompt texts do not influence any claim and are elided; a loaded image
is represented by its file name. -/

structure ReviewEnv where
  fileExists : String → Bool
  apiCall : String → Except String String

/-- `CHECK_CONFIGS` (api_client.py line 20): display name and reference
files per category.  The model is defined on the four configured
categories; in Python, any other key raises `KeyError` before the
reviewer's `try` block, a path no claim exercises. -/
def CHECK_CONFIGS (c : String) : String × List String :=
  if c = "atm" then
    ("ATM画像チェック", ["atm_image_types.png", "atm_image_prohibitions.png"])
  else if c = "logo" then
    ("ロゴチェック", ["logo_guide.png", "logo_isolation_minsize.png"])
  else if c = "wording" then ("表記・ワーディングチェック", [])
  else if c = "format" then ("形式チェック", [])
  else ("", [])

/-- `_load_reference_images` (api_client.py line 76): loads each file in
order and raises `FileNotFoundError` at the first missing one. -/
def load_reference_images (fileExists : String → Bool) : List String → Except String (List String)
  | [] => Except.ok []
  | f :: fs =>
    if fileExists f then
      match load_reference_images fileExists fs with
      | Except.ok r => Except.ok (f :: r)
      | Except.error e => Except.error e
    else Except.error ("参照画像が見つかりません: " ++ f)

/-- The `try` block of `_run_single_check` (api_client.py lines 123-161):
load the category's reference images when it has any (`if
config["files"]:`), then invoke the model. -/
def checkBody (category : String) (env : ReviewEnv) : Except String String :=
  match (if (CHECK_CONFIGS category).2.isEmpty then Except.ok []
         else load_reference_images env.fileExists (CHECK_CONFIGS category).2) with
  | Except.error e => Except.error e
  | Except.ok _ => env.apiCall category

/-- `_run_single_check` (api_client.py line 112): every exception of the
body is caught and turned into a failed `CheckResult` with the
exception's message; a success carries the response text. -/
def run_single_check (category : String) (env : ReviewEnv) : CheckResult :=
  match checkBody category env with
  | Except.ok text =>
    CheckResult.mk category (CHECK_CONFIGS category).1 text true none
  | Except.error e =>
    CheckResult.mk category (CHECK_CONFIGS category).1 "" false (some e)

/-- `API_TIMEOUT = 120` (api_client.py line 109). -/
def API_TIMEOUT : Nat := 120

/-- The enabled categories, in dict insertion order:
`[cat for cat, enabled in check_items.items() if enabled]`. -/
def activeCategories (check_items : List (String × Bool)) : List String :=
  (check_items.filter (fun p => p.2)).map (fun p => p.1)

/-- `run_proofread_parallel` (api_client.py line 175).

Concurrency is abstracted by `finishTime c`, the wall-clock second at
which category `c`'s future completes; `as_completed` yields finished
futures in `finishTime` order (a stable sort over the submission order
stands for the completion order — universally quantifying `finishTime`
ranges over every completion order).

When every future finishes within `API_TIMEOUT + 30` seconds, the loop
appends `future.result()` for each future: `_run_single_check` never
raises, so `future.result()` never raises and the loop's two `except`
branches are unreachable.  When some future is still pending at the
overall deadline, `as_completed`'s iterator raises
`concurrent.futures.TimeoutError` at the `for` statement itself — the
loop-body `try` wraps only `future.result()`, so nothing catches it, the
partially collected `results` list is discarded and the exception
escapes `run_proofread_parallel`.

`check_items=None` defaults to all four categories enabled.  Target
image resizing and the per-category prompt lookup (`prompts.get`) do not
affect any claim and are elided, `env.apiCall` standing for the whole
model call. -/
def run_proofread_parallel (check_items? : Option (List (String × Bool)))
    (env : ReviewEnv) (finishTime : String → Nat) : Except String (List CheckResult) :=
  let check_items := check_items?.getD
    [("atm", true), ("logo", true), ("wording", true), ("format", true)]
  let active := activeCategories check_items
  if active.any (fun c => decide (API_TIMEOUT + 30 < finishTime c)) then
    Except.error ("concurrent.futures.TimeoutError: futures unfinished")
  else
    let completed := sortByKey finishTime active
    Except.ok (sortByKey (fun r => canonIndex r.category)
      (completed.map (fun c => run_single_check c env)))

/-! ### Sorting lemmas -/

theorem insertByKey_perm {α : Type} (key : α → Nat) (x : α) (l : List α) :
    (insertByKey key x l).Perm (x :: l) := by
  induction l with
  | nil => simp [insertByKey]
  | cons y ys ih =>
    by_cases h : key x ≤ key y
    · simp [insertByKey, h]
    · simp only [insertByKey, if_neg h]
      exact (ih.cons y).trans (List.Perm.swap x y ys)

theorem sortByKey_perm {α : Type} (key : α → Nat) (l : List α) :
    (sortByKey key l).Perm l := by
  induction l with
  | nil => simp [sortByKey]
  | cons x xs ih =>
    exact (insertByKey_perm key x (sortByKey key xs)).trans (ih.cons x)

theorem insertByKey_append_of_lt {α : Type} (key : α → Nat) (x : α) (L R : List α)
    (h : ∀ y ∈ L, key y < key x) :
    insertByKey key x (L ++ R) = L ++ insertByKey key x R := by
  induction L with
  | nil => rfl
  | cons y ys ih =>
    have hy : ¬ key x ≤ key y := by
      have := h y (List.mem_cons_self y ys)
      omega
    rw [List.cons_append, insertByKey, if_neg hy,
      ih (fun z hz => h z (List.mem_cons_of_mem y hz)), List.cons_append]

theorem insertByKey_eq_cons {α : Type} (key : α → Nat) (x : α) (R : List α)
    (h : ∀ y ∈ R, key x ≤ key y) :
    insertByKey key x R = x :: R := by
  cases R with
  | nil => rfl
  | cons y ys => rw [insertByKey, if_pos (h y (List.mem_cons_self y ys))]

/-- Elements of the list with key `i`, in order. -/
def bucket {α : Type} (key : α → Nat) (i : Nat) (l : List α) : List α :=
  l.filter (fun x => decide (key x = i))

theorem mem_bucket_key {α : Type} {key : α → Nat} {i : Nat} {l : List α} {y : α}
    (h : y ∈ bucket key i l) : key y = i := by
  have := (List.mem_filter.mp h).2
  exact of_decide_eq_true this

theorem bucket_cons {α : Type} (key : α → Nat) (i : Nat) (a : α) (l : List α) :
    bucket key i (a :: l) =
      if key a = i then a :: bucket key i l else bucket key i l := by
  by_cases h : key a = i
  · simp [bucket, List.filter_cons, h]
  · simp [bucket, List.filter_cons, h]

/-- Inserting between a block of strictly smaller keys and a block of
larger-or-equal keys lands exactly at the seam. -/
theorem insertByKey_middle {α : Type} (key : α → Nat) (x : α) (L R : List α)
    (hL : ∀ y ∈ L, key y < key x) (hR : ∀ y ∈ R, key x ≤ key y) :
    insertByKey key x (L ++ R) = L ++ x :: R := by
  rw [insertByKey_append_of_lt key x L R hL, insertByKey_eq_cons key x R hR]

/-- A stable sort whose keys all lie below 4 is the concatenation of the
key buckets in key order. -/
theorem sortByKey_eq_buckets {α : Type} (key : α → Nat) (l : List α)
    (h : ∀ x ∈ l, key x < 4) :
    sortByKey key l =
      bucket key 0 l ++ bucket key 1 l ++ bucket key 2 l ++ bucket key 3 l := by
  induction l with
  | nil => rfl
  | cons a l ih =>
    have ha : key a < 4 := h a (List.mem_cons_self a l)
    have ih' := ih (fun x hx => h x (List.mem_cons_of_mem a hx))
    have hb0 : ∀ y ∈ bucket key 0 l, key y = 0 := fun y hy => mem_bucket_key hy
    have hb1 : ∀ y ∈ bucket key 1 l, key y = 1 := fun y hy => mem_bucket_key hy
    have hb2 : ∀ y ∈ bucket key 2 l, key y = 2 := fun y hy => mem_bucket_key hy
    have hb3 : ∀ y ∈ bucket key 3 l, key y = 3 := fun y hy => mem_bucket_key hy
    have hcase : key a = 0 ∨ key a = 1 ∨ key a = 2 ∨ key a = 3 := by omega
    rw [sortByKey, ih', bucket_cons, bucket_cons, bucket_cons, bucket_cons]
    rcases hcase with hk | hk | hk | hk
    · rw [if_pos hk, if_neg (by omega), if_neg (by omega), if_neg (by omega)]
      have step := insertByKey_middle key a []
        (bucket key 0 l ++ bucket key 1 l ++ bucket key 2 l ++ bucket key 3 l)
        (by intro y hy; cases hy)
        (by intro y _; omega)
      simpa using step
    · rw [if_neg (by omega), if_pos hk, if_neg (by omega), if_neg (by omega)]
      have step := insertByKey_middle key a (bucket key 0 l)
        (bucket key 1 l ++ bucket key 2 l ++ bucket key 3 l)
        (by intro y hy; have := hb0 y hy; omega)
        (by
          intro y hy
          rcases List.mem_append.mp hy with hy' | hy'
          · rcases List.mem_append.mp hy' with hy'' | hy''
            · have := hb1 y hy''; omega
            · have := hb2 y hy''; omega
          · have := hb3 y hy'; omega)
      rw [show bucket key 0 l ++ bucket key 1 l ++ bucket key 2 l ++ bucket key 3 l
          = bucket key 0 l ++ (bucket key 1 l ++ bucket key 2 l ++ bucket key 3 l) by
        simp [List.append_assoc]]
      rw [step]
      simp [List.append_assoc]
    · rw [if_neg (by omega), if_neg (by omega), if_pos hk, if_neg (by omega)]
      have step := insertByKey_middle key a (bucket key 0 l ++ bucket key 1 l)
        (bucket key 2 l ++ bucket key 3 l)
        (by
          intro y hy
          rcases List.mem_append.mp hy with hy' | hy'
          · have := hb0 y hy'; omega
          · have := hb1 y hy'; omega)
        (by
          intro y hy
          rcases List.mem_append.mp hy with hy' | hy'
          · have := hb2 y hy'; omega
          · have := hb3 y hy'; omega)
      rw [show bucket key 0 l ++ bucket key 1 l ++ bucket key 2 l ++ bucket key 3 l
          = (bucket key 0 l ++ bucket key 1 l) ++ (bucket key 2 l ++ bucket key 3 l) by
        simp [List.append_assoc]]
      rw [step]
      simp [List.append_assoc]
    · rw [if_neg (by omega), if_neg (by omega), if_neg (by omega), if_pos hk]
      have step := insertByKey_middle key a
        (bucket key 0 l ++ bucket key 1 l ++ bucket key 2 l) (bucket key 3 l)
        (by
          intro y hy
          rcases List.mem_append.mp hy with hy' | hy'
          · rcases List.mem_append.mp hy' with hy'' | hy''
            · have := hb0 y hy''; omega
            · have := hb1 y hy''; omega
          · have := hb2 y hy'; omega)
        (by intro y hy; have := hb3 y hy; omega)
      rw [step]

theorem filter_map_eq {α β : Type} (f : α → β) (p : β → Bool) (l : List α) :
    (l.map f).filter p = (l.filter (fun a => p (f a))).map f := by
  induction l with
  | nil => rfl
  | cons a l ih =>
    by_cases h : p (f a)
    · simp [List.filter_cons, h, ih]
    · simp [List.filter_cons, h, ih]

/-- In a duplicate-free list, filtering for equality with `a` keeps at
most the one occurrence of `a`. -/
theorem filter_eq_of_nodup {α : Type} [DecidableEq α] (l : List α) (a : α)
    (h : l.Nodup) :
    l.filter (fun x => decide (x = a)) = if a ∈ l then [a] else [] := by
  induction l with
  | nil => simp
  | cons b bs ih =>
    rcases List.nodup_cons.mp h with ⟨hb, hbs⟩
    rw [List.filter_cons]
    by_cases hba : b = a
    · subst hba
      rw [if_pos (by simp), ih hbs, if_neg hb, if_pos (List.mem_cons_self b bs)]
    · rw [if_neg (by simp [hba]), ih hbs]
      by_cases hmem : a ∈ bs
      · rw [if_pos hmem, if_pos (List.mem_cons_of_mem b hmem)]
      · rw [if_neg hmem, if_neg (by
          intro hc
          rcases List.mem_cons.mp hc with hc' | hc'
          · exact hba hc'.symm
          · exact hmem hc')]

/-! ### Characterisation of the dispatcher's output -/

theorem run_single_check_category (c : String) (env : ReviewEnv) :
    (run_single_check c env).category = c := by
  unfold run_single_check
  cases checkBody c env <;> rfl

theorem canonIndex_lt_four {c : String} (h : c ∈ category_order) : canonIndex c < 4 := by
  simp [category_order] at h
  rcases h with h | h | h | h <;> subst h <;> decide

theorem canonIndex_eq_zero_iff {c : String} (h : c ∈ category_order) :
    canonIndex c = 0 ↔ c = "atm" := by
  simp [category_order] at h
  rcases h with h | h | h | h <;> subst h <;> decide

theorem canonIndex_eq_one_iff {c : String} (h : c ∈ category_order) :
    canonIndex c = 1 ↔ c = "logo" := by
  simp [category_order] at h
  rcases h with h | h | h | h <;> subst h <;> decide

theorem canonIndex_eq_two_iff {c : String} (h : c ∈ category_order) :
    canonIndex c = 2 ↔ c = "wording" := by
  simp [category_order] at h
  rcases h with h | h | h | h <;> subst h <;> decide

theorem canonIndex_eq_three_iff {c : String} (h : c ∈ category_order) :
    canonIndex c = 3 ↔ c = "format" := by
  simp [category_order] at h
  rcases h with h | h | h | h <;> subst h <;> decide

/-- One bucket of the sorted result list: the unique result of the
matching category when that category ran, nothing otherwise. -/
theorem bucket_map_run (env : ReviewEnv) (completed : List String) (i : Nat) (ci : String)
    (hsub : ∀ c ∈ completed, c ∈ category_order)
    (hnd : completed.Nodup)
    (hiff : ∀ c ∈ category_order, (canonIndex c = i ↔ c = ci)) :
    bucket (fun r => canonIndex r.category) i
        (completed.map (fun c => run_single_check c env))
      = if ci ∈ completed then [run_single_check ci env] else [] := by
  unfold bucket
  rw [filter_map_eq]
  have h1 : ∀ c ∈ completed,
      (decide (canonIndex (run_single_check c env).category = i)) = (decide (c = ci)) := by
    intro c hc
    rw [run_single_check_category]
    exact decide_eq_decide.mpr (hiff c (hsub c hc))
  rw [List.filter_congr h1, filter_eq_of_nodup completed ci hnd]
  by_cases hm : ci ∈ completed <;> simp [hm]

/-- The results the four canonical buckets assemble to: exactly one
`run_single_check` outcome per enabled category, in canonical category
order. -/
def canonicalResults (check_items : List (String × Bool)) (env : ReviewEnv) : List CheckResult :=
  (category_order.filter (fun c => decide (c ∈ activeCategories check_items))).map
    (fun c => run_single_check c env)

theorem activeCategories_sub {items : List (String × Bool)}
    (hk : ∀ p ∈ items, p.1 ∈ category_order) :
    ∀ c ∈ activeCategories items, c ∈ category_order := by
  intro c hc
  rcases List.mem_map.mp hc with ⟨p, hp, rfl⟩
  exact hk p (List.mem_of_mem_filter hp)

theorem activeCategories_nodup {items : List (String × Bool)}
    (hnd : (items.map Prod.fst).Nodup) :
    (activeCategories items).Nodup := by
  have hsub : List.Sublist ((items.filter (fun p => p.2)).map Prod.fst)
      (items.map Prod.fst) :=
    (List.filter_sublist items).map Prod.fst
  exact hnd.sublist hsub

/-- When every enabled category's future completes within the overall
deadline, `run_proofread_parallel` returns exactly one result per
enabled category, in canonical category order — whatever the completion
times were. -/
theorem run_parallel_eq (items : List (String × Bool)) (env : ReviewEnv)
    (finishTime : String → Nat)
    (hk : ∀ p ∈ items, p.1 ∈ category_order)
    (hnd : (items.map Prod.fst).Nodup)
    (hft : ∀ c ∈ activeCategories items, finishTime c ≤ API_TIMEOUT + 30) :
    run_proofread_parallel (some items) env finishTime
      = Except.ok (canonicalResults items env) := by
  have hsub := activeCategories_sub hk
  have hndact := activeCategories_nodup hnd
  have hguard : (activeCategories items).any
      (fun c => decide (API_TIMEOUT + 30 < finishTime c)) = false := by
    by_contra hg
    rw [Bool.not_eq_false, List.any_eq_true] at hg
    rcases hg with ⟨c, hc, hdec⟩
    have h1 := of_decide_eq_true hdec
    have h2 := hft c hc
    omega
  rw [run_proofread_parallel]
  simp only [Option.getD, hguard, Bool.false_eq_true, if_false]
  have hperm := sortByKey_perm finishTime (activeCategories items)
  have hcm : ∀ c, c ∈ sortByKey finishTime (activeCategories items)
      ↔ c ∈ activeCategories items := fun c => hperm.mem_iff
  have hcsub : ∀ c ∈ sortByKey finishTime (activeCategories items), c ∈ category_order :=
    fun c hc => hsub c ((hcm c).mp hc)
  have hcnd : (sortByKey finishTime (activeCategories items)).Nodup :=
    hperm.nodup_iff.mpr hndact
  have hkeys : ∀ r ∈ (sortByKey finishTime (activeCategories items)).map
      (fun c => run_single_check c env), canonIndex r.category < 4 := by
    intro r hr
    rcases List.mem_map.mp hr with ⟨c, hc, rfl⟩
    rw [run_single_check_category]
    exact canonIndex_lt_four (hcsub c hc)
  rw [sortByKey_eq_buckets (fun r : CheckResult => canonIndex r.category) _ hkeys]
  rw [bucket_map_run env _ 0 "atm" hcsub hcnd (fun c hc => canonIndex_eq_zero_iff hc),
    bucket_map_run env _ 1 "logo" hcsub hcnd (fun c hc => canonIndex_eq_one_iff hc),
    bucket_map_run env _ 2 "wording" hcsub hcnd (fun c hc => canonIndex_eq_two_iff hc),
    bucket_map_run env _ 3 "format" hcsub hcnd (fun c hc => canonIndex_eq_three_iff hc)]
  simp only [hcm]
  by_cases h0 : "atm" ∈ activeCategories items <;>
    by_cases h1 : "logo" ∈ activeCategories items <;>
    by_cases h2 : "wording" ∈ activeCategories items <;>
    by_cases h3 : "format" ∈ activeCategories items <;>
    simp [canonicalResults, category_order, List.filter_cons, h0, h1, h2, h3]

/-! ### The merger on successfully parsed objects -/

/-- Spec-side mirror of the defensive defaults of report_generator.py
lines 94-102, used to state the refinement: the `number` default is the
1-based position, `severity` defaults to `Info`, the string fields
default to the empty string.  (The non-object branch is never reached
when every issue element is a JSON object.) -/
def issueSpec (n : Nat) (d : Json) : Issue :=
  match d with
  | Json.obj m =>
    Issue.mk ((lookupKey m ("number")).getD (Json.num n))
      ((lookupKey m ("severity")).getD (Json.str ("Info")))
      ((lookupKey m ("content")).getD (Json.str ("")))
      ((lookupKey m ("basis")).getD (Json.str ("")))
      ((lookupKey m ("location")).getD (Json.str ("")))
      ((lookupKey m ("action")).getD (Json.str ("")))
  | _ => Issue.mk Json.null Json.null Json.null Json.null Json.null Json.null

def issuesSpec : Nat → List Json → List Issue
  | _, [] => []
  | n, d :: ds => issueSpec n d :: issuesSpec (n + 1) ds

/-- Spec-side mirror of the severity rule alone: the stored severity is
the field's value verbatim when present, `Info` when absent. -/
def severitySpec (d : Json) : Json :=
  match d with
  | Json.obj m => (lookupKey m ("severity")).getD (Json.str ("Info"))
  | j => j

theorem issuesSpec_length (n : Nat) (ds : List Json) :
    (issuesSpec n ds).length = ds.length := by
  induction ds generalizing n with
  | nil => rfl
  | cons d ds ih => simp [issuesSpec, ih]

theorem buildIssue_obj (i : Nat) (m : List (String × Json)) :
    buildIssue i (Json.obj m) = Except.ok (issueSpec i (Json.obj m)) := rfl

theorem buildIssues_eq (n : Nat) (ds : List Json)
    (hobj : ∀ d ∈ ds, ∃ m, d = Json.obj m) :
    buildIssues n ds = Except.ok (issuesSpec n ds) := by
  induction ds generalizing n with
  | nil => rfl
  | cons d ds ih =>
    rcases hobj d (List.mem_cons_self d ds) with ⟨m, hm⟩
    subst hm
    rw [buildIssues, buildIssue_obj,
      ih (n + 1) (fun d' hd' => hobj d' (List.mem_cons_of_mem _ hd'))]
    rfl

/-- A successful outcome whose text parses to a JSON object yields the
fully defaulted section. -/
theorem parse_single_success_eq (cat nm t : String) (kvs : List (String × Json))
    (ds : List Json)
    (hp : parse_json_result t = some (Json.obj kvs))
    (hd : (lookupKey kvs ("issues")).getD (Json.arr []) = Json.arr ds)
    (hobj : ∀ d ∈ ds, ∃ m, d = Json.obj m) :
    parse_single_result (CheckResult.mk cat nm t true none)
      = Except.ok (CheckSection.mk nm cat (issuesSpec 1 ds)
          ((lookupKey kvs ("visual_checks")).getD (Json.arr []))
          ((lookupKey kvs ("has_target")).getD (Json.bool true)) none) := by
  simp only [parse_single_result, hp, pyDictGet, pyIter, hd,
    buildIssues_eq 1 ds hobj, Bool.true_eq_false, if_false]

/-- A successful outcome with no extractable JSON yields the
parse-error section: a non-empty error and zero issues. -/
theorem parse_single_parse_failure (cat nm t : String)
    (hp : parse_json_result t = none) :
    parse_single_result (CheckResult.mk cat nm t true none)
      = Except.ok (CheckSection.mk nm cat [] (Json.arr []) (Json.bool true)
          (some (previewErr t))) := by
  unfold parse_single_result
  simp only [hp]
  rw [if_neg (by simp)]

/-- A failed outcome yields the error-carrying section untouched. -/
theorem parse_single_failed (cat nm t : String) (e : Option String) :
    parse_single_result (CheckResult.mk cat nm t false e)
      = Except.ok (CheckSection.mk nm cat [] (Json.arr []) (Json.bool false) e) := rfl

/-- `merge_results` on one outcome, when its section parses, its visual
checks iterate, and its severities are hashable. -/
theorem merge_results_singleton (cr : CheckResult) (sec : CheckSection) (v : List Json)
    (out : Summary)
    (hps : parse_single_result cr = Except.ok sec)
    (hv : pyIter sec.visual_checks = Except.ok v)
    (hb : bumpIssues sec.issues (Summary.mk 0 0 0) = Except.ok out) :
    merge_results [cr] = Except.ok (ParsedReport.mk out [sec] v [cr]) := by
  rw [merge_results,
    show sortByKey (fun r => canonIndex r.category) [cr] = [cr] from rfl,
    mergeLoop]
  simp only [hps, hv, hb, mergeLoop]
  simp

/-- The spec invariant on one `CheckResult`. -/
def resultInvariant (r : CheckResult) : Prop :=
  (r.success = true → r.error = none) ∧ (r.success = false → r.result_text = "")

theorem run_single_check_invariant (c : String) (env : ReviewEnv) :
    resultInvariant (run_single_check c env) := by
  unfold run_single_check resultInvariant
  cases checkBody c env with
  | ok text => exact ⟨fun _ => rfl, fun h => nomatch h⟩
  | error e => exact ⟨fun h => (nomatch h), fun _ => rfl⟩

theorem severities_issuesSpec (n : Nat) (ds : List Json)
    (hobj : ∀ d ∈ ds, ∃ m, d = Json.obj m) :
    (issuesSpec n ds).map (fun i => i.severity) = ds.map severitySpec := by
  induction ds generalizing n with
  | nil => rfl
  | cons d ds ih =>
    rcases hobj d (List.mem_cons_self d ds) with ⟨m, hm⟩
    subst hm
    rw [issuesSpec, List.map_cons, List.map_cons,
      ih (n + 1) (fun d' hd' => hobj d' (List.mem_cons_of_mem _ hd'))]
    rfl

/-! ### Claims -/

theorem mem_canonicalResults {items : List (String × Bool)} (env : ReviewEnv) (d : String)
    (hk : ∀ p ∈ items, p.1 ∈ category_order) (hd : d ∈ activeCategories items) :
    run_single_check d env ∈ canonicalResults items env := by
  unfold canonicalResults
  exact List.mem_map.mpr
    ⟨d, List.mem_filter.mpr ⟨activeCategories_sub hk d hd, decide_eq_true hd⟩, rfl⟩

/-- Claim C1: for every enabled subset of the four categories, when all
futures finish within the overall deadline the dispatcher returns the
canonical list — one `run_single_check` outcome per enabled category and
none for a disabled one, sorted into `category_order`, independently of
the completion times `finishTime`; moreover that list has exactly one
entry per enabled category, only enabled categories, and is sorted by
canonical index. -/
theorem claim_c1_dispatch_canonical (items : List (String × Bool)) (env : ReviewEnv)
    (finishTime : String → Nat)
    (hk : ∀ p ∈ items, p.1 ∈ category_order)
    (hnd : (items.map Prod.fst).Nodup)
    (hft : ∀ c ∈ activeCategories items, finishTime c ≤ API_TIMEOUT + 30) :
    run_proofread_parallel (some items) env finishTime
      = Except.ok (canonicalResults items env) ∧
    (∀ c ∈ activeCategories items,
      ((canonicalResults items env).filter (fun r => decide (r.category = c))).length = 1) ∧
    (∀ r ∈ canonicalResults items env, r.category ∈ activeCategories items) ∧
    (canonicalResults items env).Pairwise
      (fun r1 r2 => canonIndex r1.category ≤ canonIndex r2.category) := by
  refine ⟨run_parallel_eq items env finishTime hk hnd hft, ?_, ?_, ?_⟩
  · intro c hc
    rw [canonicalResults, filter_map_eq]
    have hcongr : ∀ c' ∈ category_order.filter (fun c0 => decide (c0 ∈ activeCategories items)),
        (decide ((run_single_check c' env).category = c)) = (decide (c' = c)) := by
      intro c' _
      rw [run_single_check_category]
    rw [List.filter_congr hcongr,
      filter_eq_of_nodup _ c ((by decide : category_order.Nodup).filter _),
      if_pos (List.mem_filter.mpr ⟨activeCategories_sub hk c hc, decide_eq_true hc⟩)]
    rfl
  · intro r hr
    rcases List.mem_map.mp hr with ⟨c', hc', rfl⟩
    rw [run_single_check_category]
    exact of_decide_eq_true (List.mem_filter.mp hc').2
  · rw [canonicalResults, List.pairwise_map]
    have hp : (category_order.filter (fun c0 => decide (c0 ∈ activeCategories items))).Pairwise
        (fun a b => canonIndex a ≤ canonIndex b) :=
      (by decide : category_order.Pairwise (fun a b => canonIndex a ≤ canonIndex b)).sublist
        (List.filter_sublist category_order)
    exact hp.imp (fun h => by
      rw [run_single_check_category, run_single_check_category]; exact h)

/-- An environment in which every reference file exists and every model
call succeeds with an empty response. -/
def envW : ReviewEnv := ReviewEnv.mk (fun _ => true) (fun _ => Except.ok (""))

/-- Witness for claim C1 at a concrete subset (atm enabled, logo
disabled, wording enabled) and a concrete finish time. -/
theorem claim_c1_witness :
    (∀ p ∈ [("atm", true), ("logo", false), ("wording", true)], p.1 ∈ category_order) ∧
    (([("atm", true), ("logo", false), ("wording", true)].map Prod.fst).Nodup) ∧
    (∀ c ∈ activeCategories [("atm", true), ("logo", false), ("wording", true)],
      (fun _ : String => 7) c ≤ API_TIMEOUT + 30) ∧
    run_proofread_parallel (some [("atm", true), ("logo", false), ("wording", true)])
        envW (fun _ => 7)
      = Except.ok (canonicalResults [("atm", true), ("logo", false), ("wording", true)] envW) :=
  ⟨by decide, by decide, by decide,
    (claim_c1_dispatch_canonical [("atm", true), ("logo", false), ("wording", true)]
      envW (fun _ => 7) (by decide) (by decide) (by decide)).1⟩

/-- Claim C2, the code as written: when the `atm` future is still
pending at `API_TIMEOUT + 30` seconds, `as_completed`'s iterator raises
`concurrent.futures.TimeoutError` at the `for` statement, outside the
loop-body `try` (which wraps only `future.result()`), so the dispatcher
raises instead of recording the synthetic timeout `CheckResult` built by
the unreachable `except TimeoutError:` branch of api_client.py
lines 232-239. -/
theorem claim_c2_timeout_escapes :
    run_proofread_parallel (some [("atm", true)]) envW (fun _ => API_TIMEOUT + 31)
      = Except.error ("concurrent.futures.TimeoutError: futures unfinished") := rfl

/-- Claim C6: a category whose reviewer body raises (missing reference
file, network failure, ...) yields exactly the failed `CheckResult`
carrying the exception's message; the exception never escapes the
dispatcher (the run still returns `Except.ok`), and every other enabled
category's entry is `run_single_check d env` — an expression that does
not depend on the failing category's behaviour. -/
theorem claim_c6_fault_isolation (items : List (String × Bool)) (env : ReviewEnv)
    (finishTime : String → Nat) (c : String) (e : String)
    (hk : ∀ p ∈ items, p.1 ∈ category_order)
    (hnd : (items.map Prod.fst).Nodup)
    (hft : ∀ d ∈ activeCategories items, finishTime d ≤ API_TIMEOUT + 30)
    (hc : c ∈ activeCategories items)
    (he : checkBody c env = Except.error e) :
    ∃ L, run_proofread_parallel (some items) env finishTime = Except.ok L ∧
      CheckResult.mk c (CHECK_CONFIGS c).1 "" false (some e) ∈ L ∧
      ∀ d ∈ activeCategories items, d ≠ c → run_single_check d env ∈ L := by
  refine ⟨canonicalResults items env, run_parallel_eq items env finishTime hk hnd hft, ?_, ?_⟩
  · have hcr : run_single_check c env
        = CheckResult.mk c (CHECK_CONFIGS c).1 "" false (some e) := by
      rw [run_single_check, he]
    rw [← hcr]
    exact mem_canonicalResults env c hk hc
  · intro d hd _
    exact mem_canonicalResults env d hk hd

/-- An environment whose filesystem is empty: every category that needs
a reference image fails with `FileNotFoundError`. -/
def envFailW : ReviewEnv := ReviewEnv.mk (fun _ => false) (fun _ => Except.ok (""))

/-- Witness for claim C6: `atm` fails on its first missing reference
image while `wording` (which needs none) still succeeds. -/
theorem claim_c6_witness :
    (∀ p ∈ [("atm", true), ("wording", true)], p.1 ∈ category_order) ∧
    (([("atm", true), ("wording", true)].map Prod.fst).Nodup) ∧
    (∀ d ∈ activeCategories [("atm", true), ("wording", true)],
      (fun _ : String => 0) d ≤ API_TIMEOUT + 30) ∧
    ("atm" ∈ activeCategories [("atm", true), ("wording", true)]) ∧
    checkBody ("atm") envFailW
      = Except.error ("参照画像が見つかりません: atm_image_types.png") ∧
    ∃ L, run_proofread_parallel (some [("atm", true), ("wording", true)]) envFailW
        (fun _ => 0) = Except.ok L ∧
      CheckResult.mk ("atm") (CHECK_CONFIGS ("atm")).1 ""
        false (some ("参照画像が見つかりません: atm_image_types.png")) ∈ L ∧
      ∀ d ∈ activeCategories [("atm", true), ("wording", true)], d ≠ "atm" →
        run_single_check d envFailW ∈ L :=
  ⟨by decide, by decide, by decide, by decide, rfl,
    claim_c6_fault_isolation [("atm", true), ("wording", true)] envFailW (fun _ => 0)
      ("atm") ("参照画像が見つかりません: atm_image_types.png")
      (by decide) (by decide) (by decide) (by decide) rfl⟩

/-- The shape of every entry of a successful dispatch. -/
theorem run_parallel_ok_shape (check_items? : Option (List (String × Bool)))
    (env : ReviewEnv) (finishTime : String → Nat) (L : List CheckResult)
    (h : run_proofread_parallel check_items? env finishTime = Except.ok L) :
    ∀ r ∈ L, ∃ c, r = run_single_check c env := by
  intro r hr
  simp only [run_proofread_parallel] at h
  split at h
  · exact Except.noConfusion h
  · injection h with h'
    subst h'
    have hmem := (sortByKey_perm (fun r : CheckResult => canonIndex r.category) _).mem_iff.mp hr
    rcases List.mem_map.mp hmem with ⟨c, _, rfl⟩
    exact ⟨c, rfl⟩

/-- Claim C9: every `CheckResult` built by the category reviewer, and
every entry of a successful dispatch, satisfies the invariant
`success = true → error = none` and `success = false → result_text = ""`. -/
theorem claim_c9_result_invariant :
    (∀ (c : String) (env : ReviewEnv), resultInvariant (run_single_check c env)) ∧
    (∀ (check_items? : Option (List (String × Bool))) (env : ReviewEnv)
      (finishTime : String → Nat) (L : List CheckResult),
      run_proofread_parallel check_items? env finishTime = Except.ok L →
      ∀ r ∈ L, resultInvariant r) := by
  refine ⟨run_single_check_invariant, ?_⟩
  intro check_items? env finishTime L h r hr
  rcases run_parallel_ok_shape check_items? env finishTime L h r hr with ⟨c, rfl⟩
  exact run_single_check_invariant c env

/-- Witness for claim C9 at a concrete reviewer call and a concrete
dispatch. -/
theorem claim_c9_witness :
    resultInvariant (run_single_check ("atm") envW) ∧
    (∀ r ∈ [CheckResult.mk ("atm") ("ATM画像チェック") ("") true none], resultInvariant r) :=
  ⟨claim_c9_result_invariant.1 ("atm") envW,
    claim_c9_result_invariant.2 (some [("atm", true)]) envW (fun _ => 0)
      [CheckResult.mk ("atm") ("ATM画像チェック") ("") true none] rfl⟩

/-- Claim C4 counterexample: a parsed issue with severity `CRITICAL` is
stored verbatim — neither rejected nor coerced to `Info`, and not
case-normalized — so a `CheckSection` does carry a severity outside
`{Fail, Warning, Info}`. -/
theorem claim_c4_counterexample :
    (merge_results [CheckResult.mk ("atm") ("ATM画像チェック")
        ("\x7b\"issues\": [\x7b\"severity\": \"CRITICAL\"\x7d]\x7d") true none]).map
      (fun r => r.sections.map (fun s => s.issues.map (fun i => i.severity)))
      = Except.ok [[Json.str ("CRITICAL")]] := rfl

/-- Claim C4 as amended: a present severity value is stored on the
`Issue` verbatim — the `Info` default applies only when the field is
absent — with no rejection, coercion, or case normalization, so a
section's issues may carry arbitrary severity values. -/
theorem claim_c4_severity_verbatim (cat nm t : String) (kvs : List (String × Json))
    (ds : List Json)
    (hp : parse_json_result t = some (Json.obj kvs))
    (hd : (lookupKey kvs ("issues")).getD (Json.arr []) = Json.arr ds)
    (hobj : ∀ d ∈ ds, ∃ m, d = Json.obj m) :
    ∃ sec, parse_single_result (CheckResult.mk cat nm t true none) = Except.ok sec ∧
      sec.issues.map (fun i => i.severity) = ds.map severitySpec :=
  ⟨_, parse_single_success_eq cat nm t kvs ds hp hd hobj,
    severities_issuesSpec 1 ds hobj⟩

/-- The raw text of the claim C4 witness: one issue with severity
`CRITICAL`, one with the field missing. -/
def tW4 : String := "\x7b\"issues\": [\x7b\"severity\": \"CRITICAL\"\x7d, \x7b\x7d]\x7d"

def kvsW4 : List (String × Json) :=
  [("issues", Json.arr [Json.obj [("severity", Json.str ("CRITICAL"))], Json.obj []])]

def dsW4 : List Json := [Json.obj [("severity", Json.str ("CRITICAL"))], Json.obj []]

/-- Witness for the amended claim C4 at a concrete parse. -/
theorem claim_c4_witness :
    parse_json_result tW4 = some (Json.obj kvsW4) ∧
    (lookupKey kvsW4 ("issues")).getD (Json.arr []) = Json.arr dsW4 ∧
    (∀ d ∈ dsW4, ∃ m, d = Json.obj m) ∧
    (∃ sec, parse_single_result (CheckResult.mk ("atm") ("ATM画像チェック") tW4 true none)
        = Except.ok sec ∧
      sec.issues.map (fun i => i.severity) = dsW4.map severitySpec) :=
  ⟨rfl, rfl,
    (fun d hdm => by
      cases hdm with
      | head => exact ⟨_, rfl⟩
      | tail _ h2 =>
        cases h2 with
        | head => exact ⟨_, rfl⟩
        | tail _ h3 => cases h3),
    claim_c4_severity_verbatim ("atm") ("ATM画像チェック") tW4 kvsW4 dsW4 rfl rfl
      (fun d hdm => by
        cases hdm with
        | head => exact ⟨_, rfl⟩
        | tail _ h2 =>
          cases h2 with
          | head => exact ⟨_, rfl⟩
          | tail _ h3 => cases h3)⟩

/-- Claim C7: merging a successful outcome whose raw text has no
extractable JSON yields one section with zero issues and a non-empty
error holding the truncated preview — never a clean "no issues"
section — and it contributes nothing to the summary. -/
theorem claim_c7_unparsable_text (cat nm t : String)
    (hp : parse_json_result t = none) :
    merge_results [CheckResult.mk cat nm t true none]
      = Except.ok (ParsedReport.mk (Summary.mk 0 0 0)
          [CheckSection.mk nm cat [] (Json.arr []) (Json.bool true) (some (previewErr t))]
          [] [CheckResult.mk cat nm t true none]) ∧
    previewErr t ≠ "" := by
  constructor
  · exact merge_results_singleton _ _ _ _ (parse_single_parse_failure cat nm t hp) rfl rfl
  · intro hc
    have hlen := congrArg String.length hc
    unfold previewErr at hlen
    rw [String.length_append, String.length_append] at hlen
    have e1 : ("JSONパースエラー: ").length = 12 := rfl
    have e2 : ("...").length = 3 := rfl
    have e3 : ("" : String).length = 0 := rfl
    omega

/-- Witness for claim C7 on a plain-prose response. -/
theorem claim_c7_witness :
    parse_json_result ("hello") = none ∧
    (merge_results [CheckResult.mk ("atm") ("ATM画像チェック") ("hello") true none]
      = Except.ok (ParsedReport.mk (Summary.mk 0 0 0)
          [CheckSection.mk ("ATM画像チェック") ("atm") [] (Json.arr []) (Json.bool true)
            (some (previewErr ("hello")))]
          [] [CheckResult.mk ("atm") ("ATM画像チェック") ("hello") true none]) ∧
    previewErr ("hello") ≠ "") :=
  ⟨rfl, claim_c7_unparsable_text ("atm") ("ATM画像チェック") ("hello") rfl⟩

/-- Claim C8: from a successfully parsed object the merger builds one
issue per element of the `issues` array — `issuesSpec` realises exactly
the defensive defaults (missing `number` → 1-based position, missing
`severity` → `Info`, missing string fields → empty string) — no element
is discarded (the lengths agree), and `has_target` (like
`visual_checks`) falls back to its default only when the key is absent. -/
theorem claim_c8_defensive_defaults (cat nm t : String) (kvs : List (String × Json))
    (ds : List Json)
    (hp : parse_json_result t = some (Json.obj kvs))
    (hd : (lookupKey kvs ("issues")).getD (Json.arr []) = Json.arr ds)
    (hobj : ∀ d ∈ ds, ∃ m, d = Json.obj m) :
    parse_single_result (CheckResult.mk cat nm t true none)
      = Except.ok (CheckSection.mk nm cat (issuesSpec 1 ds)
          ((lookupKey kvs ("visual_checks")).getD (Json.arr []))
          ((lookupKey kvs ("has_target")).getD (Json.bool true)) none) ∧
    (issuesSpec 1 ds).length = ds.length :=
  ⟨parse_single_success_eq cat nm t kvs ds hp hd hobj, issuesSpec_length 1 ds⟩

/-- The raw text of the claim C8 witness: one issue with every field
missing, one with only a severity; `has_target` absent. -/
def tW8 : String := "\x7b\"issues\": [\x7b\x7d, \x7b\"severity\": \"Warning\"\x7d]\x7d"

def kvsW8 : List (String × Json) :=
  [("issues", Json.arr [Json.obj [], Json.obj [("severity", Json.str ("Warning"))]])]

def dsW8 : List Json := [Json.obj [], Json.obj [("severity", Json.str ("Warning"))]]

/-- Witness for claim C8 at a concrete parse with missing fields. -/
theorem claim_c8_witness :
    parse_json_result tW8 = some (Json.obj kvsW8) ∧
    (lookupKey kvsW8 ("issues")).getD (Json.arr []) = Json.arr dsW8 ∧
    (∀ d ∈ dsW8, ∃ m, d = Json.obj m) ∧
    (parse_single_result (CheckResult.mk ("atm") ("ATM画像チェック") tW8 true none)
        = Except.ok (CheckSection.mk ("ATM画像チェック") ("atm") (issuesSpec 1 dsW8)
            ((lookupKey kvsW8 ("visual_checks")).getD (Json.arr []))
            ((lookupKey kvsW8 ("has_target")).getD (Json.bool true)) none) ∧
      (issuesSpec 1 dsW8).length = dsW8.length) :=
  ⟨rfl, rfl,
    (fun d hdm => by
      cases hdm with
      | head => exact ⟨_, rfl⟩
      | tail _ h2 =>
        cases h2 with
        | head => exact ⟨_, rfl⟩
        | tail _ h3 => cases h3),
    claim_c8_defensive_defaults ("atm") ("ATM画像チェック") tW8 kvsW8 dsW8 rfl rfl
      (fun d hdm => by
        cases hdm with
        | head => exact ⟨_, rfl⟩
        | tail _ h2 =>
          cases h2 with
          | head => exact ⟨_, rfl⟩
          | tail _ h3 => cases h3)⟩

/-- Claim C10: when the fence regex matches, extraction parses only the
captured fenced content — if that content is not valid JSON the section
is the parse-error section with zero issues, even when the whole
stripped text is itself a well-formed JSON object; there is no fallback
to whole-text parsing. -/
theorem claim_c10_no_fence_fallback (cat nm t : String) (g : List Char) (j : Json)
    (hf : searchFence t.toList = some g)
    (hg : json_loads_chars g = none)
    (_hw : json_loads (pyStrip t) = some j) :
    parse_json_result t = none ∧
    parse_single_result (CheckResult.mk cat nm t true none)
      = Except.ok (CheckSection.mk nm cat [] (Json.arr []) (Json.bool true)
          (some (previewErr t))) := by
  have hpn : parse_json_result t = none := by
    simp only [parse_json_result, parse_json_result_chars, hf]
    exact hg
  exact ⟨hpn, parse_single_parse_failure cat nm t hpn⟩

/-- Witness for claim C10: the whole text is a well-formed JSON object
whose string value contains a backtick fence; the regex captures `x`,
which does not parse, so the section is a parse error although the whole
text would have parsed. -/
theorem claim_c10_witness :
    searchFence (("\x7b\"a\": \"``` x ```\"\x7d").toList) = some (("x").toList) ∧
    json_loads_chars (("x").toList) = none ∧
    json_loads (pyStrip ("\x7b\"a\": \"``` x ```\"\x7d"))
      = some (Json.obj [("a", Json.str ("``` x ```"))]) ∧
    parse_json_result ("\x7b\"a\": \"``` x ```\"\x7d") = none :=
  ⟨rfl, rfl, rfl,
    (claim_c10_no_fence_fallback ("atm") ("ATM画像チェック") ("\x7b\"a\": \"``` x ```\"\x7d")
      (("x").toList) (Json.obj [("a", Json.str ("``` x ```"))]) rfl rfl rfl).1⟩
